import Mathlib

/-!
Verification development for the chunking / parallel-conversion / merge core of
the `simple-page-saver` repository (`src/backend/`).

The Python sources are shallowly embedded as executable Lean definitions:

* `result_merger.py`  → `removeOverlap`, `mergeMarkdownChunks`,
  `dedupJsonBlocks`, `mergeJsonChunks`, `mergeCombinedChunks`
* `token_manager.py`  → `calculateTokenBudget`
* `chunking.py`       → `paragraphChunk`, `sentenceChunk`, `wordChunkLoop`,
  `chunkWithPreallocation`
* `parallel_processor.py` → `ChunkResult`, `processChunks`
* `extraction_strategies.py` → `markdownPostProcess`, `structuredPostProcess`,
  `combinedPostProcess`, `getStrategyPostProcess`
* `ai_converter.py` (`convert_large_html`) → `convertLargeHtml`

External collaborators that are not part of the repository are passed in as
function parameters, mirroring the spec's interface boundary:

* `tiktoken` token counting (`TokenManager.count_tokens`) is a parameter
  `ct : String → String → Nat` (text, model name);
* the model-catalog resolution (`get_model_context_limit`, which may hit the
  network) is a parameter `getLimit : String → Nat`;
* the single-chunk converter `convert_to_markdown` (LLM network call with
  local fallbacks) is a parameter returning `(markdown, used_ai, error)`;
* Python's `json` standard library (`json.loads` / `json.dumps`) is a pair of
  parameters `loads : String → Except String Json` and `dumps : Json → String`;
  the concrete `Json.parse` / `Json.dumpsModel` below are faithful model
  instances used to evaluate concrete test inputs.

Python ints are modelled by `Nat`/`Int` (Python integers are unbounded, so no
wrap-around is needed); the `float` parameters `overlap_percentage` and
`safety_margin` are modelled by `ℚ` (all values appearing in the code, such as
0.1, 0.75, 0.8 and 0.95, are small decimal constants for which Python's float
arithmetic followed by `int(..)` agrees with exact rational arithmetic followed
by truncation, which `pyInt` implements).  Wall-clock fields
(`processing_time`, `total_time`) are real-time observables; they are carried
as `ℚ` fields whose values the embedding fixes to 0 and no claim inspects.
-/

/-! ## Python-primitive helpers -/

/-- Python `int(n * q)` for an integer `n` and an exact rational `q`:
the value is `(n * q.num) / q.den`, truncated toward zero.  (Every
`int(.. * ..)` in the source multiplies an integer by one of the small decimal
constants 0.1, 0.75, 0.8, 0.95, for which Python's float arithmetic agrees
with exact rational arithmetic.)  Implemented on `Int`/`Nat` directly so that
it evaluates inside the kernel. -/
def pyIntMul (n : ℤ) (q : ℚ) : ℤ :=
  let m := n * q.num
  if 0 ≤ m then ((m.natAbs / q.den : Nat) : ℤ)
  else -((m.natAbs / q.den : Nat) : ℤ)

/-- The rational 0.1 (the default `overlap_percentage`), given by an explicit
numerator/denominator pair so that it evaluates inside the kernel. -/
def ratTenth : ℚ := ⟨1, 10, by decide, by decide⟩

/-- The rational 0.9, used as a large `overlap_percentage` in concrete runs. -/
def ratNineTenths : ℚ := ⟨9, 10, by decide, by decide⟩

/-- The rational 0.75 (`WORDS_PER_TOKEN`, chunking.py line 122). -/
def ratThreeQuarters : ℚ := ⟨3, 4, by decide, by decide⟩

/-- The rational 0.8 (the chunker-budget factor, ai_converter.py line 617). -/
def ratFourFifths : ℚ := ⟨4, 5, by decide, by decide⟩

/-- The rational 0.95 (the default `safety_margin`, ai_converter.py
line 596). -/
def ratNineteenTwentieths : ℚ := ⟨19, 20, by decide, by decide⟩

/-- Python `enumerate` over a list, starting at `i`. -/
def pyEnum {α : Type} : Nat → List α → List (Nat × α)
  | _, [] => []
  | i, x :: xs => (i, x) :: pyEnum (i + 1) xs

/-- Python slice `s[-n:]` on a string (whole string when `n ≥ len(s)`). -/
def pyTakeLast (s : String) (n : Nat) : String :=
  s.drop (s.length - n)

/-- Python slice `s[:-n]` on a string (empty when `n ≥ len(s)`). -/
def pyDropLast (s : String) (n : Nat) : String :=
  s.take (s.length - n)

/-- Python slice `l[-n:]` on a list (whole list when `n ≥ len(l)`, as used with
`n ≥ 1` by the chunking strategies). -/
def pyListTakeLast {α : Type} (l : List α) (n : Nat) : List α :=
  l.drop (l.length - n)

/-- The ASCII whitespace characters of Python's `str.split()` / regex `\s`
(the inputs handled by the pipeline are text; the Unicode extension of `\s`
is not modelled). -/
def pyIsSpaceChar (c : Char) : Bool :=
  c == ' ' || c == '\t' || c == '\n' || c == '\r' || c == '\x0b' || c == '\x0c'

/-- Scanner for Python `text.split()`: words are maximal runs of
non-whitespace characters; leading, trailing and repeated whitespace produce
no empty pieces. -/
def pySplitWsAux : List Char → List Char → List String
  | acc, [] => if acc.isEmpty then [] else [String.mk acc.reverse]
  | acc, c :: rest =>
    if pyIsSpaceChar c then
      if acc.isEmpty then pySplitWsAux [] rest
      else String.mk acc.reverse :: pySplitWsAux [] rest
    else pySplitWsAux (c :: acc) rest

/-- Python `text.split()` (no separator argument). -/
def pySplitWs (text : String) : List String :=
  pySplitWsAux [] text.data

/-- Python truthiness of an optional string (`None` and `""` are falsy). -/
def pyTruthy : Option String → Bool
  | none => false
  | some s => s ≠ ""

/-- Python `s.startswith(pre)`. -/
def pyStartsWith (s pre : String) : Bool :=
  pre.data.isPrefixOf s.data

/-- Python `s.endswith(suf)`. -/
def pyEndsWith (s suf : String) : Bool :=
  suf.data.reverse.isPrefixOf s.data.reverse

/-- Python `s.strip()` (ASCII whitespace, matching `pyIsSpaceChar`). -/
def pyStrip (s : String) : String :=
  String.mk (((s.data.dropWhile pyIsSpaceChar).reverse.dropWhile pyIsSpaceChar).reverse)

/-- ASCII lowering of one character (the artifacts compared case-insensitively
by the markdown post-processing are ASCII). -/
def pyLowerChar (c : Char) : Char :=
  if 'A' ≤ c ∧ c ≤ 'Z' then Char.ofNat (c.toNat + 32) else c

/-- Python `s.lower()` on ASCII text. -/
def pyLower (s : String) : String :=
  String.mk (s.data.map pyLowerChar)

/-- Scanner for Python `s.split(sep)` with a non-empty separator: take the
piece up to the next occurrence of `sep`, drop the separator, continue.  The
fuel argument (`length + 1` at the call site) only bounds the recursion;
every step consumes at least one character, so it never runs out. -/
def pySplitOnAux (sep : List Char) : Nat → List Char → List Char → List (List Char)
  | 0, acc, _ => [acc.reverse]
  | _ + 1, acc, [] => [acc.reverse]
  | fuel + 1, acc, c :: rest =>
    if sep.isPrefixOf (c :: rest) then
      acc.reverse :: pySplitOnAux sep fuel [] ((c :: rest).drop sep.length)
    else
      pySplitOnAux sep fuel (c :: acc) rest

/-- Python `s.split(sep)` for a non-empty separator (all separators in the
source — `"\n\n"`, `"/"`, the `---MARKDOWN---`-style markers — are
non-empty). -/
def pySplitOn (s sep : String) : List String :=
  (pySplitOnAux sep.data (s.data.length + 1) [] s.data).map String.mk

theorem length_dropWhile_le {α : Type} (p : α → Bool) (l : List α) :
    (l.dropWhile p).length ≤ l.length := by
  induction l with
  | nil => simp [List.dropWhile]
  | cons x xs ih =>
    by_cases h : p x
    · simp only [List.dropWhile, h]
      exact Nat.le_succ_of_le ih
    · simp [List.dropWhile, h]

/-! ## JSON values

A model of the values produced by Python's `json.loads` on the documents this
pipeline handles (JSON numbers are modelled as integers; the structured blocks
flowing through the merger only carry strings, arrays, objects, booleans and
small integers).  Python dicts preserve insertion order, so objects are ordered
association lists; the documents produced by the pipeline carry no duplicate
keys. -/

inductive Json where
  | null : Json
  | bool (b : Bool) : Json
  | num (n : Int) : Json
  | str (s : String) : Json
  | arr (elems : List Json) : Json
  | obj (fields : List (String × Json)) : Json

/-- Python `block[k]` lookup / `k in block` membership on a decoded value
(`none` for non-dict values, mirroring the `isinstance(block, dict)` guards). -/
def Json.getField? : Json → String → Option Json
  | .obj fs, k => fs.lookup k
  | _, _ => none

/-- Python `block[k] = v` on an ordered dict: replace the existing entry in
place, else append at the end. -/
def setField : List (String × Json) → String → Json → List (String × Json)
  | [], k, v => [(k, v)]
  | (k', v') :: rest, k, v =>
    if k' = k then (k, v) :: rest else (k', v') :: setField rest k v

mutual

/-- Python `str(..)` applied to a decoded JSON value, as used for content
fingerprints.  The merger only ever applies it to string contents, where
`str` is the identity; the remaining cases follow Python's rendering of the
decoded value closely enough for the non-string shapes (which no claim
exercises). -/
def pyStr : Json → String
  | .null => "None"
  | .bool true => "True"
  | .bool false => "False"
  | .num n => toString n
  | .str s => s
  | .arr l => "[" ++ pyStrList l ++ "]"
  | .obj fs => "\x7b" ++ pyStrFields fs ++ "\x7d"

def pyStrList : List Json → String
  | [] => ""
  | [v] => pyStr v
  | v :: rest => pyStr v ++ ", " ++ pyStrList rest

def pyStrFields : List (String × Json) → String
  | [] => ""
  | [(k, v)] => k ++ ": " ++ pyStr v
  | (k, v) :: rest => k ++ ": " ++ pyStr v ++ ", " ++ pyStrFields rest

end

/-! ### A concrete `json.loads` / `json.dumps` model

`Json.parse` is a recursive-descent parser for the JSON fragment exercised by
the concrete test inputs (objects, arrays, strings with the basic escapes,
integers, booleans, null); `Json.dumpsModel` is the corresponding serializer.
They instantiate the `loads` / `dumps` parameters in witnesses and
counterexamples. -/

def jsonSkipWs (cs : List Char) : List Char :=
  cs.dropWhile (fun c => pyIsSpaceChar c)

def jsonParseString : List Char → Option (String × List Char)
  | [] => none
  | c :: rest =>
    if c = '"' then some ("", rest)
    else if c = '\\' then
      match rest with
      | [] => none
      | e :: rest' =>
        let dec : Option Char :=
          if e = '"' then some '"'
          else if e = '\\' then some '\\'
          else if e = '/' then some '/'
          else if e = 'n' then some '\n'
          else if e = 't' then some '\t'
          else if e = 'r' then some '\r'
          else none
        match dec with
        | none => none
        | some d =>
          match jsonParseString rest' with
          | some (s, r) => some (String.singleton d ++ s, r)
          | none => none
    else
      match jsonParseString rest with
      | some (s, r) => some (String.singleton c ++ s, r)
      | none => none

def jsonParseDigits (cs : List Char) : Nat × List Char :=
  let ds := cs.takeWhile (fun c => c.isDigit)
  (ds.foldl (fun n c => n * 10 + (c.toNat - 48)) 0,
   cs.dropWhile (fun c => c.isDigit))

mutual

def jsonParseVal : Nat → List Char → Option (Json × List Char)
  | 0, _ => none
  | _ + 1, [] => none
  | fuel + 1, c :: rest =>
    if c = '"' then
      match jsonParseString rest with
      | some (s, r) => some (.str s, r)
      | none => none
    else if c = '[' then
      let r := jsonSkipWs rest
      match r with
      | ']' :: r' => some (.arr [], r')
      | _ => jsonParseElems fuel r
    else if c = '{' then
      let r := jsonSkipWs rest
      match r with
      | '}' :: r' => some (.obj [], r')
      | _ => jsonParseMembers fuel r
    else if c = 't' then
      if rest.take 3 = ['r', 'u', 'e'] then some (.bool true, rest.drop 3) else none
    else if c = 'f' then
      if rest.take 4 = ['a', 'l', 's', 'e'] then some (.bool false, rest.drop 4) else none
    else if c = 'n' then
      if rest.take 3 = ['u', 'l', 'l'] then some (.null, rest.drop 3) else none
    else if c = '-' then
      match rest with
      | d :: _ =>
        if d.isDigit then
          let p := jsonParseDigits rest
          some (.num (-(p.1 : Int)), p.2)
        else none
      | [] => none
    else if c.isDigit then
      let p := jsonParseDigits (c :: rest)
      some (.num (p.1 : Int), p.2)
    else none

def jsonParseElems : Nat → List Char → Option (Json × List Char)
  | 0, _ => none
  | fuel + 1, cs =>
    match jsonParseVal fuel (jsonSkipWs cs) with
    | none => none
    | some (v, r) =>
      match jsonSkipWs r with
      | ',' :: r' =>
        match jsonParseElems fuel r' with
        | some (.arr vs, r'') => some (.arr (v :: vs), r'')
        | _ => none
      | ']' :: r' => some (.arr [v], r')
      | _ => none

def jsonParseMembers : Nat → List Char → Option (Json × List Char)
  | 0, _ => none
  | fuel + 1, cs =>
    match jsonSkipWs cs with
    | '"' :: r =>
      match jsonParseString r with
      | none => none
      | some (k, r') =>
        match jsonSkipWs r' with
        | ':' :: r'' =>
          match jsonParseVal fuel (jsonSkipWs r'') with
          | none => none
          | some (v, r3) =>
            match jsonSkipWs r3 with
            | ',' :: r4 =>
              match jsonParseMembers fuel r4 with
              | some (.obj ms, r5) => some (.obj ((k, v) :: ms), r5)
              | _ => none
            | '}' :: r4 => some (.obj [(k, v)], r4)
            | _ => none
        | _ => none
    | _ => none

end

/-- Model of Python `json.loads` on the fragment above. -/
def Json.parse (s : String) : Except String Json :=
  match jsonParseVal (s.length + 1) (jsonSkipWs s.data) with
  | some (v, r) =>
    if jsonSkipWs r = [] then .ok v else .error "Extra data"
  | none => .error "Expecting value"

def jsonEscape (s : String) : String :=
  String.join (s.data.map fun c =>
    if c = '"' then "\\" ++ String.singleton '"'
    else if c = '\\' then "\\\\"
    else if c = '\n' then "\\n"
    else if c = '\t' then "\\t"
    else if c = '\r' then "\\r"
    else String.singleton c)

mutual

/-- Model of Python `json.dumps`.  (The claims under verification never inspect
the serialized text itself — only block structure and lengths — so the
indentation layout of `indent=2` is not replicated; this serializer produces
the compact rendering.) -/
def Json.dumpsModel : Json → String
  | .null => "null"
  | .bool true => "true"
  | .bool false => "false"
  | .num n => toString n
  | .str s => "\"" ++ jsonEscape s ++ "\""
  | .arr l => "[" ++ Json.dumpsList l ++ "]"
  | .obj fs => "\x7b" ++ Json.dumpsFields fs ++ "\x7d"

def Json.dumpsList : List Json → String
  | [] => ""
  | [v] => Json.dumpsModel v
  | v :: rest => Json.dumpsModel v ++ ", " ++ Json.dumpsList rest

def Json.dumpsFields : List (String × Json) → String
  | [] => ""
  | [(k, v)] => "\"" ++ jsonEscape k ++ "\": " ++ Json.dumpsModel v
  | (k, v) :: rest =>
    "\"" ++ jsonEscape k ++ "\": " ++ Json.dumpsModel v ++ ", " ++ Json.dumpsFields rest

end

/-! ## Result merger (`src/backend/result_merger.py`) -/

/-- `MergeResult` dataclass (result_merger.py, lines 15–22). -/
structure MergeResult where
  combined_text : String
  original_length : Nat
  deduplicated_length : Nat
  overlap_removed : Nat
  chunk_count : Nat
deriving DecidableEq, Repr

/-- Inner search loop of `ResultMerger._remove_overlap` (lines 190–196):
`for size in range(len(prev_end), min_overlap, -10)` testing whether the
suffix `prev_end[-size:]` is a prefix of the current chunk.  The fuel
argument (`size + 1` at the call site) only bounds the recursion: `size`
drops by 10 per step and the loop stops at `size ≤ min_overlap`, so the fuel
never runs out. -/
def overlapSearchAux (prevEnd cur : String) (minOv : Nat) :
    Nat → Nat → Option (String × Nat)
  | 0, _ => none
  | fuel + 1, size =>
    if size ≤ minOv then none
    else if pyStartsWith cur (pyTakeLast prevEnd size) then some (cur.drop size, size)
    else overlapSearchAux prevEnd cur minOv fuel (size - 10)

/-- The `range(len(prev_end), min_overlap, -10)` search, started at `size`. -/
def overlapSearch (prevEnd cur : String) (minOv : Nat) (size : Nat) :
    Option (String × Nat) :=
  overlapSearchAux prevEnd cur minOv (size + 1) size

/-- `ResultMerger._remove_overlap` (result_merger.py, lines 169–199).
`q` is the merger's `overlap_percentage`; `minOv` the `min_overlap`
parameter (default 50). -/
def removeOverlap (q : ℚ) (minOv : Nat) (prevChunk currentChunk : String) :
    String × Nat :=
  let window : ℤ := pyIntMul (prevChunk.length : ℤ) q
  if window < (minOv : ℤ) then (currentChunk, 0)
  else
    let prevEnd := pyTakeLast prevChunk window.toNat
    match overlapSearch prevEnd currentChunk minOv prevEnd.length with
    | some r => r
    | none => (currentChunk, 0)

/-- `ResultMerger.merge_markdown_chunks` (result_merger.py, lines 34–90).
The accumulator carries the merged chunks in reverse (`merged_chunks[-1]` is
its head) together with `total_overlap_removed`. -/
def mergeMarkdownChunks (q : ℚ) (sep : String) (chunks : List String) :
    MergeResult :=
  match chunks with
  | [] => ⟨"", 0, 0, 0, 0⟩
  | [c] => ⟨c, c.length, c.length, 0, 1⟩
  | c0 :: c1 :: rest =>
    let originalLength := ((c0 :: c1 :: rest).map String.length).sum
    let st := (c1 :: rest).foldl
      (fun (st : List String × Nat) c =>
        let r := removeOverlap q 50 (st.1.headD "") c
        (r.1 :: st.1, st.2 + r.2))
      ([c0], 0)
    let combined := String.intercalate sep st.1.reverse
    ⟨combined, originalLength, combined.length, st.2, (c0 :: c1 :: rest).length⟩

/-- Fingerprint of a block's `content` value: `content[:100] if len > 100 else
content` (result_merger.py, lines 219–220). -/
def fingerprintOf (content : Json) : String :=
  let c := pyStr content
  if c.length > 100 then c.take 100 else c

/-- Fingerprint collection over already-merged blocks (result_merger.py,
lines 216–221).  Python uses a `set`; an insertion-ordered duplicate-free list
gives the same membership. -/
def addFingerprints (fps : List String) (blocks : List Json) : List String :=
  blocks.foldl
    (fun fps b =>
      match b.getField? "content" with
      | some c =>
        let f := fingerprintOf c
        if fps.contains f then fps else fps ++ [f]
      | none => fps)
    fps

/-- `ResultMerger._deduplicate_json_blocks` (result_merger.py, lines 201–240):
returns `(unique_new_blocks, duplicate_count)`. -/
def dedupJsonBlocks (existing newBlocks : List Json) : List Json × Nat :=
  let st := newBlocks.foldl
    (fun (st : List Json × Nat × List String) b =>
      match b.getField? "content" with
      | some c =>
        let f := fingerprintOf c
        if st.2.2.contains f then (st.1, st.2.1 + 1, st.2.2)
        else (st.1 ++ [b], st.2.1, st.2.2 ++ [f])
      | none => (st.1 ++ [b], st.2.1, st.2.2))
    ([], 0, addFingerprints [] existing)
  (st.1, st.2.1)

/-- Accumulation loop of `ResultMerger.merge_json_chunks` (result_merger.py,
lines 118–148): parse every chunk, extend with the first chunk's blocks,
deduplicate subsequent ones, skip non-array payloads, and append an error
block for invalid JSON.  Returns `(all_blocks, total_duplicates)` before
re-indexing. -/
def mergeJsonAllBlocks (loads : String → Except String Json)
    (chunks : List String) : List Json × Nat :=
  (pyEnum 0 chunks).foldl
    (fun (st : List Json × Nat) p =>
      match loads p.2 with
      | .ok (.arr bs) =>
        if p.1 = 0 then (st.1 ++ bs, st.2)
        else
          let r := dedupJsonBlocks st.1 bs
          (st.1 ++ r.1, st.2 + r.2)
      | .ok _ => st
      | .error e =>
        (st.1 ++ [Json.obj [("error", .bool true), ("chunk_index", .num p.1),
                            ("message", .str ("Invalid JSON: " ++ e))]], st.2))
    ([], 0)

/-- Re-indexing pass of `merge_json_chunks` (result_merger.py, lines 150–153):
every dict block that already has an `index` field gets its position in the
merged list. -/
def reindexBlocks (blocks : List Json) : List Json :=
  (pyEnum 0 blocks).map fun p =>
    match p.2 with
    | .obj fs =>
      if (fs.lookup "index").isSome then Json.obj (setField fs "index" (.num p.1))
      else Json.obj fs
    | b => b

/-- The merged block list of `merge_json_chunks` on the multi-chunk path
(accumulation followed by re-indexing). -/
def mergeJsonMergedBlocks (loads : String → Except String Json)
    (chunks : List String) : List Json :=
  reindexBlocks (mergeJsonAllBlocks loads chunks).1

/-- `ResultMerger.merge_json_chunks` (result_merger.py, lines 92–167). -/
def mergeJsonChunks (loads : String → Except String Json)
    (dumps : Json → String) (chunks : List String) : MergeResult :=
  match chunks with
  | [] => ⟨"[]", 0, 0, 0, 0⟩
  | [c] => ⟨c, c.length, c.length, 0, 1⟩
  | c0 :: c1 :: rest =>
    let all := mergeJsonAllBlocks loads (c0 :: c1 :: rest)
    let combined := dumps (.arr (reindexBlocks all.1))
    ⟨combined, ((c0 :: c1 :: rest).map String.length).sum, combined.length,
      all.2, (c0 :: c1 :: rest).length⟩

/-- `ResultMerger.merge_combined_chunks` (result_merger.py, lines 242–282).
`dumpsC` models the compact `json.dumps(data['structured'])` call; `dumps`
the `indent=2` variant used everywhere else.  Each chunk must decode to a
dict whose `markdown` / `structured` entries are collected; non-string
`markdown` payloads would crash the Python markdown merge and are outside the
model. -/
def mergeCombinedChunks (loads : String → Except String Json)
    (dumps dumpsC : Json → String) (q : ℚ) (chunks : List String) : Json :=
  let parts := chunks.foldl
    (fun (acc : List String × List String) c =>
      match loads c with
      | .ok d =>
        let acc :=
          match d.getField? "markdown" with
          | some (.str s) => (acc.1 ++ [s], acc.2)
          | _ => acc
        match d.getField? "structured" with
        | some v => (acc.1, acc.2 ++ [dumpsC v])
        | none => acc
      | .error _ => acc)
    ([], [])
  let mdParts := parts.1
  let jsonParts := parts.2
  let mdResult := mergeMarkdownChunks q "\n\n---\n\n" mdParts
  let jsonResult := mergeJsonChunks loads dumps jsonParts
  Json.obj
    [("markdown", .str mdResult.combined_text),
     ("structured", .str jsonResult.combined_text),
     ("metadata", Json.obj
       [("markdown_chunks", .num (mdParts.length : Int)),
        ("json_chunks", .num (jsonParts.length : Int)),
        ("markdown_overlap_removed", .num (mdResult.overlap_removed : Int)),
        ("json_duplicates_removed", .num (jsonResult.overlap_removed : Int))])]

/-! ## Token budget calculator (`src/backend/token_manager.py`) -/

/-- The dict returned by `TokenManager.calculate_token_budget`
(token_manager.py, lines 176–186).  `effective_context` and
`max_input_tokens` are integers that may be negative. -/
structure TokenBudget where
  max_context : Nat
  effective_context : ℤ
  system_tokens : Nat
  custom_tokens : Nat
  title_tokens : Nat
  overhead_tokens : Nat
  output_tokens : Nat
  max_input_tokens : ℤ
  safety_margin : ℚ
deriving DecidableEq, Repr

/-- Extraction of the tokenizer model name: `model_id.split('/')[-1] if '/' in
model_id else model_id` (token_manager.py line 158; ai_converter.py line 587).
When no `/` occurs, `splitOn` yields the singleton list, so taking the last
element covers both branches. -/
def modelNameOf (modelId : String) : String :=
  (pySplitOn modelId "/").getLastD modelId

/-- `TokenManager.calculate_token_budget` (token_manager.py, lines 134–186).
`ct` models `count_tokens` (tiktoken); `getLimit` models
`get_model_context_limit` (cache / remote catalog / static table). -/
def calculateTokenBudget (ct : String → String → Nat) (getLimit : String → Nat)
    (modelId systemPrompt customPrompt title : String)
    (outputTokens : Nat) (safetyMargin : ℚ) : TokenBudget :=
  let modelName := modelNameOf modelId
  let systemTokens := ct systemPrompt modelName
  let customTokens := if customPrompt ≠ "" then ct customPrompt modelName else 0
  let titleTokens :=
    if title ≠ "" then ct ("\nPage Title: " ++ title) modelName else 0
  let overheadTokens := systemTokens + customTokens + titleTokens
  let maxContext := getLimit modelId
  let effectiveContext := pyIntMul (maxContext : ℤ) safetyMargin
  let maxInputTokens := effectiveContext - (outputTokens : ℤ) - (overheadTokens : ℤ)
  ⟨maxContext, effectiveContext, systemTokens, customTokens, titleTokens,
   overheadTokens, outputTokens, maxInputTokens, safetyMargin⟩

/-! ## Chunking engine (`src/backend/chunking.py`)

The strategy objects all consult `TokenManager.count_tokens` with a fixed
model name, so the token counter appears below as a single-argument parameter
`ct : String → Nat`.  `maxTokens` is the strategy's (mutable) `max_tokens`
attribute — `chunk_with_preallocation` overwrites it with
`target_tokens_per_chunk` before each call — and `q` is `overlap_percentage`.
The strategies are exercised by the orchestrator with `0 ≤ q < 1`; the
embedding fixes non-negative `q` (a negative product under `int(..)` makes the
overlap sizes 0 on both sides of the model boundary). -/

/-- The accumulation loop shared by the paragraph and sentence strategies
(chunking.py, lines 43–61 and 86–103): close the current chunk when the next
unit would overflow, carrying `int(len(current_chunk) * overlap_percentage)`
trailing units forward.  State: `(chunks, current_chunk, current_tokens)`. -/
def unitAccumStep (ct : String → Nat) (maxTokens : Nat) (q : ℚ) (joiner : String)
    (st : List String × List String × Nat) (unit : String) :
    List String × List String × Nat :=
  let unitTokens := ct unit
  let st :=
    if st.2.2 + unitTokens > maxTokens ∧ st.2.1 ≠ [] then
      let chunks := st.1 ++ [String.intercalate joiner st.2.1]
      let overlapSize := (pyIntMul (st.2.1.length : ℤ) q).toNat
      if overlapSize > 0 then
        let cur := pyListTakeLast st.2.1 overlapSize
        (chunks, cur, (cur.map ct).sum)
      else (chunks, [], 0)
    else st
  (st.1, st.2.1 ++ [unit], st.2.2 + unitTokens)

/-- Chunk construction from a list of units (paragraphs or sentences): run the
accumulation loop, then close the trailing chunk and apply the
`len(chunks) > 1` success test (chunking.py, lines 39–67 / 82–109). -/
def unitChunks (ct : String → Nat) (maxTokens : Nat) (q : ℚ) (joiner : String)
    (units : List String) : Option (List String) :=
  let st := units.foldl (unitAccumStep ct maxTokens q joiner) ([], [], 0)
  let chunks := if st.2.1 ≠ [] then st.1 ++ [String.intercalate joiner st.2.1] else st.1
  if chunks.length > 1 then some chunks else none

/-- `ParagraphChunkingStrategy.chunk` (chunking.py, lines 32–67): split on
`"\n\n"`, fall through (`none`) when no paragraph break exists or at most one
chunk results. -/
def paragraphChunk (ct : String → Nat) (maxTokens : Nat) (q : ℚ)
    (text : String) : Option (List String) :=
  let paragraphs := pySplitOn text "\n\n"
  if paragraphs.length = 1 then none
  else unitChunks ct maxTokens q "\n\n" paragraphs

/-- Scanner for `re.split(r'\.\s+', text)` (chunking.py, line 76): split at
every period followed by at least one whitespace character, consuming the
maximal whitespace run.  The fuel argument (`length + 1` at the call site)
only bounds the recursion; every step consumes at least one character, so it
never runs out. -/
def sentenceSplitAux : Nat → List Char → List Char → List String
  | 0, acc, _ => [String.mk acc.reverse]
  | _ + 1, acc, [] => [String.mk acc.reverse]
  | fuel + 1, acc, c :: rest =>
    if c == '.' && (match rest with | r :: _ => pyIsSpaceChar r | [] => false) then
      String.mk acc.reverse :: sentenceSplitAux fuel [] (rest.dropWhile pyIsSpaceChar)
    else
      sentenceSplitAux fuel (c :: acc) rest

/-- Python `re.split(r'\.\s+', text)`. -/
def sentenceSplit (text : String) : List String :=
  sentenceSplitAux (text.data.length + 1) [] text.data

/-- `SentenceChunkingStrategy.chunk` (chunking.py, lines 73–109): split on
sentence boundaries and rejoin with `". "`. -/
def sentenceChunk (ct : String → Nat) (maxTokens : Nat) (q : ℚ)
    (text : String) : Option (List String) :=
  let sentences := sentenceSplit text
  if sentences.length = 1 then none
  else unitChunks ct maxTokens q ". " sentences

/-- The `while current_pos < total_words` loop of `WordChunkingStrategy.chunk`
(chunking.py, lines 131–144), indexed by fuel.  `none` means the loop did not
terminate within the given fuel; with a positive step
(`target - overlapWords ≥ 1`) the loop finishes within `words.length + 1`
iterations, while a zero step repeats the same state forever. -/
def wordChunkLoop (words : List String) (target overlapWords : Nat) :
    Nat → Nat → List String → Option (List String)
  | 0, _, _ => none
  | fuel + 1, pos, acc =>
    if pos < words.length then
      let chunkEnd := min (pos + target) words.length
      let chunkWords := (words.drop pos).take (chunkEnd - pos)
      let acc := acc ++ [String.intercalate " " chunkWords]
      let pos' := pos + (target - overlapWords)
      if pos' ≥ words.length then some acc
      else wordChunkLoop words target overlapWords fuel pos' acc
    else some acc

/-- `WordChunkingStrategy.chunk` (chunking.py, lines 115–147):
`target_words_per_chunk = int(max_tokens * 0.75)` and
`overlap_words = int(target_words_per_chunk * overlap_percentage)`, then the
sliding-window loop.  `none` reports the loop's non-termination. -/
def wordChunkFuel (maxTokens : Nat) (q : ℚ) (text : String) :
    Option (List String) :=
  let words := pySplitWs text
  let target := (pyIntMul (maxTokens : ℤ) ratThreeQuarters).toNat
  let overlapWords := (pyIntMul (target : ℤ) q).toNat
  wordChunkLoop words target overlapWords (words.length + 1) 0 []

/-- The metadata dict of `SmartChunker.chunk_with_preallocation` (chunking.py,
lines 180–191 and 244–255).  `strategy` is `Option String` because the Python
variable `strategy_used` remains `None` when the word strategy returns a
single non-empty chunk list. -/
structure ChunkingMetadata where
  total_tokens : Nat
  chunk_count : Nat
  strategy : Option String
  target_tokens_per_chunk : Nat
  actual_tokens_per_chunk : List Nat
  avg_tokens_per_chunk : Nat
  min_tokens : Nat
  max_tokens : Nat
  oversized_chunks : List (Nat × Nat)
  overlap_percentage : ℚ
deriving DecidableEq, Repr

/-- The list comprehension building `oversized_chunks` (chunking.py, lines
235–242): `(i+1, tokens)` for every chunk whose token count exceeds the
chunker's own `max_tokens`. -/
def oversizedFrom (maxTokens : Nat) : Nat → List Nat → List (Nat × Nat)
  | _, [] => []
  | i, t :: rest =>
    (if t > maxTokens then [(i + 1, t)] else []) ++ oversizedFrom maxTokens (i + 1) rest

/-- Step 4 of `chunk_with_preallocation` (chunking.py, lines 231–255): size
verification and metadata assembly for a produced chunk list. -/
def finalizeChunks (ct : String → Nat) (maxTokens : Nat) (q : ℚ)
    (totalTokens target : Nat) (chunks : List String) (strategyUsed : Option String) :
    List String × ChunkingMetadata :=
  let chunkSizes := chunks.map ct
  let oversized := oversizedFrom maxTokens 0 chunkSizes
  (chunks,
   ⟨totalTokens, chunks.length, strategyUsed, target, chunkSizes,
    if chunkSizes ≠ [] then chunkSizes.sum / chunkSizes.length else 0,
    if chunkSizes ≠ [] then (chunkSizes.min?).getD 0 else 0,
    if chunkSizes ≠ [] then (chunkSizes.max?).getD 0 else 0,
    oversized, q⟩)

/-- Python `math.ceil(a / b)` for positive integers (the float division in the
source is exact for the realistic magnitudes involved). -/
def natCeilDiv (a b : Nat) : Nat :=
  (a + b - 1) / b

/-- The pre-allocation of chunking.py lines 194–195:
`chunk_count = ceil(total / max_tokens)` followed by
`target_tokens_per_chunk = ceil(total / chunk_count)`. -/
def preallocTarget (total maxTokens : Nat) : Nat :=
  natCeilDiv total (natCeilDiv total maxTokens)

/-- `SmartChunker.chunk_with_preallocation` (chunking.py, lines 169–257).
Returns `none` in the two situations where the Python call does not produce a
value: `max_tokens = 0` (a `ZeroDivisionError` in the pre-allocation step) and
non-termination of the word-strategy loop.  The strategy cascade temporarily
sets each strategy's `max_tokens` to `target_tokens_per_chunk` (line 210); the
`if chunks and len(chunks) > 1` / `if not chunks` logic gives four outcomes
for the word strategy: more than one chunk (success), the empty list (the
`fallback_single` path), and a one-element list (kept, with `strategy_used`
still `None`). -/
def chunkWithPreallocation (ct : String → Nat) (maxTokens : Nat) (q : ℚ)
    (text : String) : Option (List String × ChunkingMetadata) :=
  if ct text ≤ maxTokens then
    some ([text],
      ⟨ct text, 1, some "no_chunking", ct text, [ct text],
       ct text, ct text, ct text, [], q⟩)
  else if maxTokens = 0 then none
  else
    match paragraphChunk ct (preallocTarget (ct text) maxTokens) q text with
    | some l => some (finalizeChunks ct maxTokens q (ct text)
        (preallocTarget (ct text) maxTokens) l (some "ParagraphChunkingStrategy"))
    | none =>
      match sentenceChunk ct (preallocTarget (ct text) maxTokens) q text with
      | some l => some (finalizeChunks ct maxTokens q (ct text)
          (preallocTarget (ct text) maxTokens) l (some "SentenceChunkingStrategy"))
      | none =>
        match wordChunkFuel (preallocTarget (ct text) maxTokens) q text with
        | none => none
        | some w =>
          if w.length > 1 then
            some (finalizeChunks ct maxTokens q (ct text)
              (preallocTarget (ct text) maxTokens) w (some "WordChunkingStrategy"))
          else if w.length = 0 then
            some (finalizeChunks ct maxTokens q (ct text)
              (preallocTarget (ct text) maxTokens) [text] (some "fallback_single"))
          else
            some (finalizeChunks ct maxTokens q (ct text)
              (preallocTarget (ct text) maxTokens) w none)

/-! ## Parallel chunk processor (`src/backend/parallel_processor.py`)

The worker pool's functional content is deterministic: every chunk is handed
to `process_func` independently, an exception raised by a worker is converted
into a failed `ChunkResult` (lines 82–92), and the collected results are
re-sorted by `chunk_index` (line 95), which erases the non-deterministic
completion order whenever the indices are distinct.  Raising is modelled by
`Except`; Python's stable `list.sort` by a stable insertion sort on
`chunk_index`. -/

/-- `ChunkResult` dataclass (parallel_processor.py, lines 15–24).
`processing_time` is wall-clock time, fixed to 0 in the embedding. -/
structure ChunkResult where
  chunk_index : Nat
  success : Bool
  output : Option String
  error : Option String
  tokens_processed : Nat
  processing_time : ℚ
  used_ai : Bool
deriving DecidableEq, Repr

/-- Stable insertion of a result into a list sorted by `chunk_index`. -/
def insertByIdx (r : ChunkResult) : List ChunkResult → List ChunkResult
  | [] => [r]
  | x :: xs =>
    if r.chunk_index ≤ x.chunk_index then r :: x :: xs else x :: insertByIdx r xs

/-- `results.sort(key=lambda r: r.chunk_index)` (parallel_processor.py,
line 95) as a stable insertion sort. -/
def sortByIdx (l : List ChunkResult) : List ChunkResult :=
  l.foldr insertByIdx []

/-- `ParallelChunkProcessor.process_chunks` (parallel_processor.py, lines
36–120), results component: each indexed chunk is processed independently
(`fn i chunk`), a raised exception (`Except.error`) becomes the failed
`ChunkResult` of lines 84–92, and the results are sorted by `chunk_index`. -/
def processChunks (fn : Nat → String → Except String ChunkResult)
    (chunks : List String) : List ChunkResult :=
  sortByIdx ((pyEnum 0 chunks).map fun p =>
    match fn p.1 p.2 with
    | .ok r => r
    | .error e => ⟨p.1, false, none, some e, 0, 0, false⟩)

/-- The countable part of the metadata dict of `process_chunks` (lines
105–114); the wall-clock fields (`total_time`, `avg_time_per_chunk`,
`speedup_estimate`) are real-time observables outside the embedding. -/
structure ParallelMetadata where
  total_chunks : Nat
  successful : Nat
  failed : Nat
  total_tokens_processed : Nat
  workers_used : Nat
deriving DecidableEq, Repr

/-- Metadata assembly of `process_chunks` (parallel_processor.py, lines
100–114). -/
def processChunksMetadata (maxWorkers : Nat) (chunks : List String)
    (results : List ChunkResult) : ParallelMetadata :=
  let successful := (results.filter (fun r => r.success)).length
  ⟨chunks.length, successful, results.length - successful,
   (results.map (fun r => r.tokens_processed)).sum, maxWorkers⟩

/-! ## Extraction strategies (`src/backend/extraction_strategies.py`)

Only the `post_process` side of the strategies feeds into the data path of
`convert_large_html` (the built prompts are consumed by the external
converter, and the `prompts` value computed inside `process_single_chunk` is
never used).  The three `post_process` implementations are embedded below;
`loads` / `dumps` again stand for Python's `json` library. -/

/-- The artifact list of `MarkdownExtractionStrategy.post_process`
(extraction_strategies.py, lines 89–95). -/
def markdownArtifacts : List String :=
  ["Here is the markdown:",
   "Here" ++ String.singleton '\'' ++ "s the markdown:",
   "Here is the converted markdown:",
   "```markdown",
   "```"]

/-- `MarkdownExtractionStrategy.post_process` (extraction_strategies.py,
lines 83–103): strip leading/trailing whitespace, then peel each artifact
off the front (case-insensitively) and the back (case-sensitively). -/
def markdownPostProcess (response : String) (_chunkIndex : Nat) : String :=
  markdownArtifacts.foldl
    (fun cleaned a =>
      let cleaned :=
        if pyStartsWith (pyLower cleaned) (pyLower a) then pyStrip (cleaned.drop a.length)
        else cleaned
      if pyEndsWith cleaned a then pyStrip (pyDropLast cleaned a.length) else cleaned)
    (pyStrip response)

/-- Default-field insertion of `StructuredExtractionStrategy.post_process`
(extraction_strategies.py, lines 201–207): add `index`, `tags` and `type`
when missing (Python dict assignment appends at the end). -/
def addDefaultFields (fs : List (String × Json)) (i : Nat) : List (String × Json) :=
  let fs := if (fs.lookup "index").isSome then fs else setField fs "index" (.num (i : Int))
  let fs := if (fs.lookup "tags").isSome then fs else setField fs "tags" (.arr [])
  if (fs.lookup "type").isSome then fs else setField fs "type" (.str "text")

/-- `StructuredExtractionStrategy.post_process` (extraction_strategies.py,
lines 170–227): strip code fences, parse, wrap a non-array value, keep the
dict blocks that have a `content` field (with defaults added), and substitute
a synthetic error block on parse failure. -/
def structuredPostProcess (loads : String → Except String Json)
    (dumps : Json → String) (response : String) (chunkIndex : Nat) : String :=
  let cleaned := pyStrip response
  let cleaned :=
    if pyStartsWith cleaned "```json" then pyStrip (cleaned.drop 7)
    else if pyStartsWith cleaned "```" then pyStrip (cleaned.drop 3)
    else cleaned
  let cleaned := if pyEndsWith cleaned "```" then pyStrip (pyDropLast cleaned 3) else cleaned
  match loads cleaned with
  | .ok data =>
    let blocks := match data with | .arr l => l | v => [v]
    let valid := (pyEnum 0 blocks).foldl
      (fun acc p =>
        match p.2 with
        | .obj fs =>
          if (fs.lookup "content").isNone then acc
          else acc ++ [Json.obj (addDefaultFields fs p.1)]
        | _ => acc)
      []
    dumps (.arr valid)
  | .error e =>
    dumps (.arr [Json.obj
      [("index", .num (chunkIndex : Int)), ("error", .bool true),
       ("tags", .arr [.str "error"]), ("type", .str "error"),
       ("content", .str ("JSON parsing failed: " ++ e)),
       ("raw_response", .str (cleaned.take 500))]])

/-- The except-branch of `CombinedExtractionStrategy.post_process`
(extraction_strategies.py, lines 300–306). -/
def combinedErrorJson (dumps : Json → String) (response msg : String) : String :=
  dumps (.obj [("error", .bool true), ("message", .str msg),
               ("raw_response", .str (response.take 500))])

/-- `CombinedExtractionStrategy.post_process` (extraction_strategies.py,
lines 273–306): split on the `---MARKDOWN---` / `---JSON---` / `---END---`
markers, parse the JSON segment, and return the combined payload, falling
back to an error object when a marker is missing or the JSON is invalid. -/
def combinedPostProcess (loads : String → Except String Json)
    (dumps : Json → String) (response : String) (chunkIndex : Nat) : String :=
  match pySplitOn response "---MARKDOWN---" with
  | _ :: p1 :: _ =>
    match pySplitOn p1 "---JSON---" with
    | r0 :: r1 :: _ =>
      let markdown := pyStrip r0
      let jsonPart := pyStrip ((pySplitOn r1 "---END---").headD "")
      match loads jsonPart with
      | .ok jd =>
        dumps (.obj [("markdown", .str markdown), ("structured", jd),
                     ("chunk_index", .num (chunkIndex : Int))])
      | .error e => combinedErrorJson dumps response e
    | _ => combinedErrorJson dumps response "Missing JSON section"
  | _ => combinedErrorJson dumps response "Missing MARKDOWN section"

/-- `get_strategy` (extraction_strategies.py, lines 309–333), restricted to
the `post_process` capability used on the data path: `'structured'` and
`'combined'` select their strategies, anything else (including `'markdown'`)
falls back to the markdown strategy. -/
def getStrategyPostProcess (loads : String → Except String Json)
    (dumps : Json → String) (strategyName : String) :
    String → Nat → String :=
  if pyLower strategyName = "structured" then structuredPostProcess loads dumps
  else if pyLower strategyName = "combined" then combinedPostProcess loads dumps
  else markdownPostProcess

/-! ## Large-document orchestration (`AIConverter.convert_large_html`,
`src/backend/ai_converter.py`, lines 540–759)

`convertToMd` models the external single-chunk converter
`convert_to_markdown(html, title, custom_prompt) -> (markdown, used_ai,
error)` (LLM call with local fallbacks — the spec's black-box `convert`).
The returned pair carries the `(content, used_ai, error_message)` triple
together with the list of chunks handed to the parallel processor, so that
"no chunk was dispatched" is an inspectable fact.  The outer `Option` is
`none` when the Python call does not return normally (word-loop divergence or
a `ZeroDivisionError` inside chunking; a negative chunker budget, which makes
`SmartChunker` misbehave before any dispatch, is likewise outside the model). -/

/-- `process_single_chunk` (ai_converter.py, lines 640–708): convert one
chunk, raising (then locally catching) when the converter reports a truthy
error, post-processing the output on success. -/
def processSingleChunk (ct : String → String → Nat)
    (convertToMd : String → String → String → String × Bool × Option String)
    (postP : String → Nat → String) (modelName title customPrompt : String)
    (chunkIdx : Nat) (chunk : String) : ChunkResult :=
  if pyTruthy (convertToMd chunk (if chunkIdx = 0 then title else "")
      customPrompt).2.2 then
    ⟨chunkIdx, false, none,
     some ((convertToMd chunk (if chunkIdx = 0 then title else "")
       customPrompt).2.2.getD ""), 0, 0, false⟩
  else
    ⟨chunkIdx, true,
     some (postP (convertToMd chunk (if chunkIdx = 0 then title else "")
       customPrompt).1 chunkIdx),
     none, ct chunk modelName, 0,
     (convertToMd chunk (if chunkIdx = 0 then title else "")
       customPrompt).2.1⟩

/-- Python f-string rendering of an optional value (`None` prints as
`"None"`). -/
def pyShowOpt : Option String → String
  | none => "None"
  | some s => s

/-- Error accumulation of `convert_large_html` (ai_converter.py, lines
751–752): `"Chunk {i+1}: {error}"` joined with `"; "`, `None` when empty. -/
def collectChunkErrors (results : List ChunkResult) : Option String :=
  let errors := (results.filter (fun r => ¬ r.success)).map
    (fun r => "Chunk " ++ toString (r.chunk_index + 1) ++ ": " ++ pyShowOpt r.error)
  if errors = [] then none else some (String.intercalate "; " errors)

/-- The chunker budget of `convert_large_html` (ai_converter.py, line 617):
`int(budget['max_input_tokens'] * 0.8)`. -/
def chunkerBudget (budget : TokenBudget) : ℤ :=
  pyIntMul budget.max_input_tokens ratFourFifths

/-- The post-dispatch phase of `convert_large_html` (ai_converter.py, lines
710–759): run the parallel processor, return the aggregate failure when no
successful output exists, else merge according to the extraction strategy. -/
def convertLargeDispatch (loads : String → Except String Json)
    (dumps dumpsC : Json → String) (ct : String → String → Nat)
    (convertToMd : String → String → String → String × Bool × Option String)
    (modelName title customPrompt strategyName : String) (q : ℚ)
    (chunks : List String) : (String × Bool × Option String) × List String :=
  let postP := getStrategyPostProcess loads dumps strategyName
  let results := processChunks
    (fun i c => .ok (processSingleChunk ct convertToMd postP modelName title
      customPrompt i c)) chunks
  let successfulOutputs := results.filterMap
    (fun r => if r.success ∧ pyTruthy r.output then r.output else none)
  if successfulOutputs.length = 0 then
    (("", false, some "All chunks failed to process"), chunks)
  else
    let usedAi := results.any (fun r => r.used_ai)
    let errorMsg := collectChunkErrors results
    if strategyName = "structured" then
      ((mergeJsonChunks loads dumps successfulOutputs |>.combined_text,
        usedAi, errorMsg), chunks)
    else if strategyName = "combined" then
      ((dumps (mergeCombinedChunks loads dumps dumpsC q successfulOutputs),
        usedAi, errorMsg), chunks)
    else
      ((mergeMarkdownChunks q "\n\n---\n\n" successfulOutputs |>.combined_text,
        usedAi, errorMsg), chunks)

/-- The chunking phase of `convert_large_html` (ai_converter.py, lines
622–716): the oversized-chunk check of lines 629–634 aborts with an error
before any chunk is dispatched. -/
def convertLargeChunkPhase (loads : String → Except String Json)
    (dumps dumpsC : Json → String) (ct : String → String → Nat)
    (convertToMd : String → String → String → String × Bool × Option String)
    (modelName title customPrompt strategyName : String) (q : ℚ)
    (p : List String × ChunkingMetadata) :
    (String × Bool × Option String) × List String :=
  if p.2.oversized_chunks.length ≠ 0 then
    (("", false,
      some ("Chunking failed: " ++ toString p.2.oversized_chunks.length ++
        " chunks exceed token limit")), [])
  else
    convertLargeDispatch loads dumps dumpsC ct convertToMd modelName title
      customPrompt strategyName q p.1

/-- The body of `convert_large_html` after the budget has been computed
(ai_converter.py, lines 599–759): the `html_tokens ≤ max_input_tokens` check
of line 606 selects the single-shot path, then the `SmartChunker` with
`int(max_input_tokens * 0.8)` is run and the chunking phase takes over. -/
def convertLargeWithBudget (loads : String → Except String Json)
    (dumps dumpsC : Json → String) (ct : String → String → Nat)
    (convertToMd : String → String → String → String × Bool × Option String)
    (model html title customPrompt strategyName : String)
    (q : ℚ) (budget : TokenBudget) :
    Option ((String × Bool × Option String) × List String) :=
  if (ct html (modelNameOf model) : ℤ) ≤ budget.max_input_tokens then
    some ((convertToMd html title customPrompt), [])
  else if chunkerBudget budget < 0 then none
  else
    (chunkWithPreallocation (fun s => ct s (modelNameOf model))
        (chunkerBudget budget).toNat q html).map
      (convertLargeChunkPhase loads dumps dumpsC ct convertToMd
        (modelNameOf model) title customPrompt strategyName q)

/-- `AIConverter.convert_large_html` (ai_converter.py, lines 540–759).
`systemPrompt` is `self.SYSTEM_PROMPT`, `model` is `self.model`,
`strategyName` the `extraction_strategy` argument and `q` the
`overlap_percentage` argument; `output_tokens=4000` and `safety_margin=0.95`
are the hard-coded values of lines 595–596.  The second component of the
result is the list of chunks submitted to the parallel processor (empty on
every path that dispatches nothing). -/
def convertLargeHtml (loads : String → Except String Json)
    (dumps dumpsC : Json → String) (ct : String → String → Nat)
    (getLimit : String → Nat)
    (convertToMd : String → String → String → String × Bool × Option String)
    (model systemPrompt html title customPrompt strategyName : String)
    (q : ℚ) : Option ((String × Bool × Option String) × List String) :=
  convertLargeWithBudget loads dumps dumpsC ct convertToMd model html title
    customPrompt strategyName q
    (calculateTokenBudget ct getLimit model systemPrompt customPrompt title
      4000 ratNineteenTwentieths)

/-! ## Helper lemmas -/

theorem pyIntMul_eq_floor (n : ℤ) (q : ℚ) (hn : 0 ≤ n) (hq : 0 ≤ q) :
    pyIntMul n q = ⌊(n : ℚ) * q⌋ := by
  have hm : 0 ≤ n * q.num := mul_nonneg hn (Rat.num_nonneg.mpr hq)
  have hval : (n : ℚ) * q = ((n * q.num : ℤ) : ℚ) / ((q.den : ℕ) : ℚ) := by
    conv_lhs => rw [← Rat.num_div_den q]
    push_cast
    ring
  rw [pyIntMul, if_pos hm, hval, Rat.floor_intCast_div_natCast]
  rw [← Int.natAbs_of_nonneg hm]
  exact Int.natCast_div _ _

theorem pyEnum_getElem? {α : Type} :
    ∀ (s : Nat) (l : List α) (k : Nat),
      (pyEnum s l)[k]? = l[k]?.map (fun x => (s + k, x)) := by
  intro s l
  induction l generalizing s with
  | nil => intro k; simp [pyEnum]
  | cons x xs ih =>
    intro k
    cases k with
    | zero => simp [pyEnum]
    | succ k =>
      simp only [pyEnum, List.getElem?_cons_succ, ih (s + 1) k]
      congr 1
      funext y
      simp
      omega

theorem pyEnum_length {α : Type} : ∀ (s : Nat) (l : List α),
    (pyEnum s l).length = l.length := by
  intro s l
  induction l generalizing s with
  | nil => rfl
  | cons x xs ih => simp [pyEnum, ih]

theorem mem_insertByIdx (x r : ChunkResult) :
    ∀ (l : List ChunkResult), x ∈ insertByIdx r l ↔ x = r ∨ x ∈ l := by
  intro l
  induction l with
  | nil => simp [insertByIdx]
  | cons y ys ih =>
    by_cases h : r.chunk_index ≤ y.chunk_index
    · simp [insertByIdx, h]
    · simp only [insertByIdx, if_neg h, List.mem_cons, ih]
      tauto

theorem mem_sortByIdx (x : ChunkResult) :
    ∀ (l : List ChunkResult), x ∈ sortByIdx l ↔ x ∈ l := by
  intro l
  induction l with
  | nil => simp [sortByIdx]
  | cons y ys ih =>
    show x ∈ insertByIdx y (sortByIdx ys) ↔ _
    rw [mem_insertByIdx, ih]
    simp

theorem sortByIdx_eq_of_chain :
    ∀ (l : List ChunkResult),
      List.Chain' (fun a b => a.chunk_index ≤ b.chunk_index) l → sortByIdx l = l := by
  intro l
  induction l with
  | nil => intro _; rfl
  | cons x xs ih =>
    intro hc
    show insertByIdx x (sortByIdx xs) = x :: xs
    rw [ih hc.tail]
    cases xs with
    | nil => rfl
    | cons y ys =>
      have hxy : x.chunk_index ≤ y.chunk_index := (List.chain'_cons.mp hc).1
      simp [insertByIdx, hxy]

theorem chain'_of_index_eq (l : List ChunkResult)
    (h : ∀ k (hk : k < l.length), (l.get ⟨k, hk⟩).chunk_index = k) :
    List.Chain' (fun a b => a.chunk_index ≤ b.chunk_index) l := by
  rw [List.chain'_iff_get]
  intro i hi
  rw [h i (by omega), h (i + 1) (by omega)]
  omega

/-- The per-worker wrapper of `process_chunks`: the returned `ChunkResult`, or
the locally-built failure record when the worker raised (parallel_processor.py,
lines 74–92). -/
def chunkOutcome (fn : Nat → String → Except String ChunkResult)
    (i : Nat) (c : String) : ChunkResult :=
  match fn i c with
  | .ok r => r
  | .error e => ⟨i, false, none, some e, 0, 0, false⟩

theorem processChunks_eq_sort (fn : Nat → String → Except String ChunkResult)
    (chunks : List String) :
    processChunks fn chunks =
      sortByIdx ((pyEnum 0 chunks).map fun p => chunkOutcome fn p.1 p.2) := rfl

theorem chunkOutcome_index (fn : Nat → String → Except String ChunkResult)
    (hfn : ∀ i c r, fn i c = .ok r → r.chunk_index = i) (i : Nat) (c : String) :
    (chunkOutcome fn i c).chunk_index = i := by
  unfold chunkOutcome
  cases h : fn i c with
  | ok r => exact hfn i c r h
  | error e => rfl

theorem processChunks_pre_sort_getElem?
    (fn : Nat → String → Except String ChunkResult) (chunks : List String)
    (k : Nat) :
    ((pyEnum 0 chunks).map fun p => chunkOutcome fn p.1 p.2)[k]? =
      (chunks[k]?).map (chunkOutcome fn k) := by
  rw [List.getElem?_map, pyEnum_getElem? 0 chunks k]
  cases chunks[k]? with
  | none => rfl
  | some c => simp

theorem processChunks_eq_map (fn : Nat → String → Except String ChunkResult)
    (chunks : List String)
    (hfn : ∀ i c r, fn i c = .ok r → r.chunk_index = i) :
    processChunks fn chunks =
      (pyEnum 0 chunks).map fun p => chunkOutcome fn p.1 p.2 := by
  rw [processChunks_eq_sort]
  apply sortByIdx_eq_of_chain
  apply chain'_of_index_eq
  intro k hk
  have hlt : k < chunks.length := by
    have hl := pyEnum_length 0 chunks
    simpa [hl] using hk
  have hget := processChunks_pre_sort_getElem? fn chunks k
  rw [List.getElem?_eq_getElem hlt, List.getElem?_eq_getElem hk,
    Option.map_some'] at hget
  rw [List.get_eq_getElem, Option.some_inj.mp hget]
  exact chunkOutcome_index fn hfn k _

theorem processChunks_getElem?
    (fn : Nat → String → Except String ChunkResult) (chunks : List String)
    (hfn : ∀ i c r, fn i c = .ok r → r.chunk_index = i) (k : Nat) :
    (processChunks fn chunks)[k]? = (chunks[k]?).map (chunkOutcome fn k) := by
  rw [processChunks_eq_map fn chunks hfn]
  exact processChunks_pre_sort_getElem? fn chunks k

/-! ## Claims -/

/-- C10: for every one-element chunk list, `merge_json_chunks` returns the
single chunk string verbatim as `combined_text` with `overlap_removed == 0`
and `chunk_count == 1`, performing no JSON parsing, validation, deduplication
or index re-numbering — the result does not depend on the `loads` / `dumps`
functions at all, so a chunk that is not valid JSON is passed through
unchanged on this path, unlike the multi-chunk path. -/
theorem mergeJson_single_chunk_verbatim (loads : String → Except String Json)
    (dumps : Json → String) (c : String) :
    mergeJsonChunks loads dumps [c] = ⟨c, c.length, c.length, 0, 1⟩ := rfl

set_option maxRecDepth 4000 in
/-- C1 (counterexample): with merger overlap percentage 0.9, a previous chunk
of 60 characters and a current chunk starting with the previous chunk's last
54 characters, the markdown merge detects and strips the 54-character overlap
(`overlap_removed = 54`) yet still joins the two chunks with the visible
`"\n\n---\n\n"` separator — it does not concatenate them directly, contrary
to the claim. -/
theorem mergeMarkdown_sep_despite_overlap_ce :
    mergeMarkdownChunks ratNineTenths "\n\n---\n\n"
        [String.mk (List.replicate 60 'a'),
         String.mk (List.replicate 54 'a') ++ "!tail"] =
      ⟨String.mk (List.replicate 60 'a') ++ "\n\n---\n\n" ++ "!tail",
       119, 72, 54, 2⟩ ∧
    String.mk (List.replicate 60 'a') ++ "\n\n---\n\n" ++ "!tail" ≠
      String.mk (List.replicate 60 'a') ++ "!tail" := by
  constructor
  · decide
  · decide

/-- The deduplicated chunk sequence of the markdown merge loop
(result_merger.py, lines 63–76), starting after a previous merged chunk
`prev`: each chunk has the overlap against the previous MERGED (already
deduplicated) chunk stripped before it is appended. -/
def dedupChunkSeq (q : ℚ) : String → List String → List String
  | _, [] => []
  | prev, c :: rest =>
    (removeOverlap q 50 prev c).1 ::
      dedupChunkSeq q (removeOverlap q 50 prev c).1 rest

/-- The total overlap characters stripped along the markdown merge loop
(`total_overlap_removed`, result_merger.py lines 61, 72–74). -/
def dedupOverlapSum (q : ℚ) : String → List String → Nat
  | _, [] => 0
  | prev, c :: rest =>
    (removeOverlap q 50 prev c).2 +
      dedupOverlapSum q (removeOverlap q 50 prev c).1 rest

theorem dedupChunkSeq_length (q : ℚ) :
    ∀ (cs : List String) (p : String),
      (dedupChunkSeq q p cs).length = cs.length := by
  intro cs
  induction cs with
  | nil => intro p; rfl
  | cons c rest ih =>
    intro p
    simp [dedupChunkSeq, ih]

theorem mergeMarkdownFold (q : ℚ) :
    ∀ (cs : List String) (p : String) (ps : List String) (n : Nat),
      cs.foldl
        (fun (st : List String × Nat) c =>
          let r := removeOverlap q 50 (st.1.headD "") c
          (r.1 :: st.1, st.2 + r.2))
        (p :: ps, n) =
      ((dedupChunkSeq q p cs).reverse ++ p :: ps,
       n + dedupOverlapSum q p cs) := by
  intro cs
  induction cs with
  | nil =>
    intro p ps n
    simp [dedupChunkSeq, dedupOverlapSum]
  | cons c rest ih =>
    intro p ps n
    show rest.foldl
        (fun (st : List String × Nat) c =>
          let r := removeOverlap q 50 (st.1.headD "") c
          (r.1 :: st.1, st.2 + r.2))
        ((removeOverlap q 50 p c).1 :: p :: ps,
         n + (removeOverlap q 50 p c).2) = _
    rw [ih (removeOverlap q 50 p c).1 (p :: ps) (n + (removeOverlap q 50 p c).2)]
    simp [dedupChunkSeq, dedupOverlapSum, List.reverse_cons, List.append_assoc,
      Nat.add_assoc]

/-- C1 (amended): for every list of two or more markdown chunks, the merge
joins ALL adjacent merged chunks with the visible separator, whether or not
an overlapping prefix was detected and stripped from a later chunk: the
combined text is exactly the separator-intercalation of the deduplicated
chunk sequence (first chunk verbatim, each later chunk with its overlap
against the previous merged chunk removed), which has one entry per input
chunk — so the separator appears between every adjacent pair and overlap
removal only shortens later chunks, it never suppresses a separator; the
reported `overlap_removed` is the total stripped along the loop. -/
theorem mergeMarkdown_separator_always (q : ℚ) (c0 c1 : String)
    (rest : List String) :
    mergeMarkdownChunks q "\n\n---\n\n" (c0 :: c1 :: rest) =
      ⟨String.intercalate "\n\n---\n\n"
          (c0 :: dedupChunkSeq q c0 (c1 :: rest)),
       ((c0 :: c1 :: rest).map String.length).sum,
       (String.intercalate "\n\n---\n\n"
          (c0 :: dedupChunkSeq q c0 (c1 :: rest))).length,
       dedupOverlapSum q c0 (c1 :: rest),
       (c0 :: c1 :: rest).length⟩ ∧
    (c0 :: dedupChunkSeq q c0 (c1 :: rest)).length =
      (c0 :: c1 :: rest).length := by
  constructor
  · simp only [mergeMarkdownChunks]
    rw [mergeMarkdownFold q (c1 :: rest) c0 [] 0]
    simp [List.reverse_append, Nat.zero_add]
  · simp [dedupChunkSeq_length]

/-- C7 (counterexample): on input whose token count is within the budget the
chunker does return the whole text as a single chunk, but the metadata
strategy field is the string `"no_chunking"`, not `"none"` as claimed. -/
theorem chunk_strategy_name_ce :
    (chunkWithPreallocation String.length 10 ratTenth "hi").map
        (fun r => r.2.strategy) = some (some "no_chunking") ∧
    (some "no_chunking" : Option String) ≠ some "none" := by
  constructor
  · rfl
  · decide

/-- C7 (amended): for every token counter, text and budget with
`count_tokens(text) ≤ max_tokens`, `chunk_with_preallocation` returns exactly
one chunk equal to the input text, and the metadata strategy field is
`"no_chunking"`. -/
theorem chunk_single_no_chunking (ct : String → Nat) (maxTokens : Nat) (q : ℚ)
    (text : String) (h : ct text ≤ maxTokens) :
    chunkWithPreallocation ct maxTokens q text =
      some ([text],
        ⟨ct text, 1, some "no_chunking", ct text, [ct text], ct text, ct text,
         ct text, [], q⟩) := by
  unfold chunkWithPreallocation
  rw [if_pos h]

/-- Witness for C7's amended theorem at `ct = String.length`,
`max_tokens = 10`, `text = "hi"`. -/
theorem chunk_single_no_chunking_witness :
    chunkWithPreallocation String.length 10 ratTenth "hi" =
      some (["hi"], ⟨2, 1, some "no_chunking", 2, [2], 2, 2, 2, [], ratTenth⟩) :=
  chunk_single_no_chunking String.length 10 ratTenth "hi" (by decide)

/-- C8: `calculate_token_budget` returns
`max_input_tokens = floor(max_context * safety_margin) - output_tokens -
overhead_tokens`, where `overhead_tokens` is the sum of the system-prompt,
custom-instruction and title token counts. -/
theorem calculateTokenBudget_formula (ct : String → String → Nat)
    (getLimit : String → Nat) (modelId systemPrompt customPrompt title : String)
    (outputTokens : Nat) (safetyMargin : ℚ) (h : 0 ≤ safetyMargin) :
    (calculateTokenBudget ct getLimit modelId systemPrompt customPrompt title
        outputTokens safetyMargin).max_input_tokens =
      ⌊(getLimit modelId : ℚ) * safetyMargin⌋ - (outputTokens : ℤ) -
        (((calculateTokenBudget ct getLimit modelId systemPrompt customPrompt
            title outputTokens safetyMargin).overhead_tokens : Nat) : ℤ) ∧
    (calculateTokenBudget ct getLimit modelId systemPrompt customPrompt title
        outputTokens safetyMargin).overhead_tokens =
      (calculateTokenBudget ct getLimit modelId systemPrompt customPrompt title
        outputTokens safetyMargin).system_tokens +
      (calculateTokenBudget ct getLimit modelId systemPrompt customPrompt title
        outputTokens safetyMargin).custom_tokens +
      (calculateTokenBudget ct getLimit modelId systemPrompt customPrompt title
        outputTokens safetyMargin).title_tokens := by
  constructor
  · show pyIntMul ((getLimit modelId : Nat) : ℤ) safetyMargin - _ - _ = _
    rw [pyIntMul_eq_floor _ _ (by positivity) h, Int.cast_natCast]
    rfl
  · rfl

/-- A constant-500 tokenizer used to realise `overhead_tokens = 500` in the
C8 witness. -/
def ct500 : String → String → Nat := fun _ _ => 500

/-- A 128000-token context-limit resolver used in the C8 witness. -/
def limit128000 : String → Nat := fun _ => 128000

/-- Witness for C8 at the spec's test vector: `max_context = 128000`,
`safety_margin = 0.95`, `overhead_tokens = 500` (a constant-500 tokenizer on
the system prompt, with empty custom prompt and title), `output_tokens =
4000`: `max_input_tokens = 117100`. -/
theorem calculateTokenBudget_formula_witness :
    (calculateTokenBudget ct500 limit128000 "m" "sys" "" ""
        4000 (19 / 20)).max_input_tokens = 117100 := by
  have h := calculateTokenBudget_formula ct500 limit128000
    "m" "sys" "" "" 4000 (19 / 20) (by norm_num)
  have h2 : ((limit128000 "m" : ℕ) : ℚ) * (19 / 20) = ((121600 : ℤ) : ℚ) := by
    norm_num [limit128000]
  have hov : (calculateTokenBudget ct500 limit128000 "m" "sys" "" "" 4000
      (19 / 20)).overhead_tokens = 500 := rfl
  rw [h.1, h2, Int.floor_intCast, hov]
  decide

/-- The first chunk of the spec's JSON-merge test: blocks `[{content:"X"}]`. -/
def jsonChunkA : String := "[\x7b\"content\": \"X\"\x7d]"

/-- The second chunk of the spec's JSON-merge test: blocks
`[{content:"X"}, {content:"Y"}]`. -/
def jsonChunkB : String := "[\x7b\"content\": \"X\"\x7d, \x7b\"content\": \"Y\"\x7d]"

theorem reindexBlocks_getElem? (blocks : List Json) (k : Nat) :
    (reindexBlocks blocks)[k]? = (blocks[k]?).map (fun b =>
      match b with
      | .obj fs =>
        if (fs.lookup "index").isSome then
          Json.obj (setField fs "index" (.num (k : Int)))
        else Json.obj fs
      | b => b) := by
  rw [reindexBlocks, List.getElem?_map, pyEnum_getElem? 0 blocks k]
  cases blocks[k]? with
  | none => rfl
  | some b => cases b <;> simp

/-- C2 (counterexample): on the spec's literal test input — chunk A with
blocks `[{content:"X"}]` and chunk B with blocks `[{content:"X"},
{content:"Y"}]` — the merged result does contain exactly the two blocks `X`
and `Y` with `overlap_removed == 1`, but neither merged block carries an
`index` field at all: the re-numbering pass of `merge_json_chunks` only
rewrites blocks that already have an `index` key, so the claimed sequential
`index` values 0, 1 do not appear. -/
theorem mergeJson_no_index_ce :
    mergeJsonMergedBlocks Json.parse [jsonChunkA, jsonChunkB] =
      [Json.obj [("content", .str "X")], Json.obj [("content", .str "Y")]] ∧
    (mergeJsonChunks Json.parse Json.dumpsModel
        [jsonChunkA, jsonChunkB]).overlap_removed = 1 ∧
    ((mergeJsonMergedBlocks Json.parse [jsonChunkA, jsonChunkB]).all
        (fun b => (b.getField? "index").isNone)) = true := by
  refine ⟨rfl, rfl, rfl⟩

/-- C2 (amended): the JSON merge of the spec's test chunks produces exactly
the two blocks `X` and `Y` with `overlap_removed == 1`; after merging, the
re-numbering pass assigns every block that already has an `index` field its
position in the merged list (0..N-1), and leaves blocks without an `index`
field — such as the test's blocks — unchanged. -/
theorem mergeJson_dedup_and_reindex :
    (mergeJsonMergedBlocks Json.parse [jsonChunkA, jsonChunkB] =
        [Json.obj [("content", .str "X")], Json.obj [("content", .str "Y")]] ∧
      (mergeJsonChunks Json.parse Json.dumpsModel
          [jsonChunkA, jsonChunkB]).overlap_removed = 1) ∧
    (∀ (blocks : List Json) (k : Nat) (fs : List (String × Json)),
        blocks[k]? = some (Json.obj fs) → (fs.lookup "index").isSome = true →
        (reindexBlocks blocks)[k]? =
          some (Json.obj (setField fs "index" (.num (k : Int))))) ∧
    (∀ (blocks : List Json) (k : Nat) (b : Json),
        blocks[k]? = some b → b.getField? "index" = none →
        (reindexBlocks blocks)[k]? = some b) := by
  refine ⟨⟨rfl, rfl⟩, ?_, ?_⟩
  · intro blocks k fs hk hidx
    rw [reindexBlocks_getElem?, hk]
    simp [hidx]
  · intro blocks k b hk hnone
    rw [reindexBlocks_getElem?, hk]
    cases b with
    | obj fs =>
      simp only [Json.getField?] at hnone
      simp [hnone]
    | null => rfl
    | bool b => rfl
    | num n => rfl
    | str s => rfl
    | arr l => rfl

/-- Witness for C2's amended theorem: a block that does carry an `index`
field (value 7) at position 0 gets the field rewritten to its position 0. -/
theorem mergeJson_dedup_and_reindex_witness :
    (reindexBlocks [Json.obj [("content", Json.str "a"), ("index", Json.num 7)]])[0]? =
      some (Json.obj [("content", Json.str "a"), ("index", Json.num 0)]) := by
  have h := mergeJson_dedup_and_reindex.2.1
    [Json.obj [("content", Json.str "a"), ("index", Json.num 7)]] 0
    [("content", Json.str "a"), ("index", Json.num 7)] rfl rfl
  exact h

theorem mem_oversizedFrom (maxT : Nat) :
    ∀ (ts : List Nat) (s k v : Nat),
      ((k, v) ∈ oversizedFrom maxT s ts ↔
        ∃ i, ∃ h : i < ts.length, k = s + i + 1 ∧ v = ts.get ⟨i, h⟩ ∧ maxT < v) := by
  intro ts
  induction ts with
  | nil =>
    intro s k v
    simp [oversizedFrom]
  | cons t rest ih =>
    intro s k v
    simp only [oversizedFrom, List.mem_append]
    constructor
    · rintro (hmem | hmem)
      · by_cases ht : maxT < t
        · rw [if_pos ht] at hmem
          simp only [List.mem_singleton, Prod.mk.injEq] at hmem
          exact ⟨0, by simp, by omega, by simp [hmem.2], by omega⟩
        · rw [if_neg ht] at hmem
          simp at hmem
      · obtain ⟨i, hi, hk, hv, hgt⟩ := (ih (s + 1) k v).mp hmem
        refine ⟨i + 1, by simp; omega, by omega, ?_, hgt⟩
        simpa using hv
    · rintro ⟨i, hi, hk, hv, hgt⟩
      cases i with
      | zero =>
        left
        have hvt : v = t := by simpa using hv
        rw [hvt] at hgt ⊢
        rw [if_pos hgt]
        simp
        omega
      | succ j =>
        right
        refine (ih (s + 1) k v).mpr ⟨j, by simpa using hi, by omega, ?_, hgt⟩
        simpa using hv

theorem finalizeChunks_oversized_iff (ct : String → Nat) (maxT : Nat) (q : ℚ)
    (total target : Nat) (l : List String) (strat : Option String)
    (i : Nat) (h : i < l.length) :
    (maxT < ct (l.get ⟨i, h⟩) ↔
      (i + 1, ct (l.get ⟨i, h⟩)) ∈
        (finalizeChunks ct maxT q total target l strat).2.oversized_chunks) := by
  show maxT < _ ↔ (i + 1, _) ∈ oversizedFrom maxT 0 (l.map ct)
  rw [mem_oversizedFrom]
  constructor
  · intro hgt
    refine ⟨i, by simpa using h, by omega, ?_, hgt⟩
    simp [List.get_eq_getElem, List.getElem_map]
  · rintro ⟨j, hj, hk, hv, hgt⟩
    exact hgt

/-- C4 (counterexample): with token counter `String.length`, budget 10 and
text `"ab\n\ncccccccccccccccc"` (20 tokens), the chunker selects the
paragraph strategy — not the degenerate fallback — and produces the chunk
`"cccccccccccccccc"` of 16 tokens, which exceeds the strategy's
`target_tokens_per_chunk` of 10: a non-fallback chunk may exceed the target
(here it is recorded in `oversized_chunks` only because it also exceeds the
chunker's `max_tokens`). -/
theorem chunk_target_exceeded_ce :
    chunkWithPreallocation String.length 10 ratTenth "ab\n\ncccccccccccccccc" =
      some (["ab", "cccccccccccccccc"],
        ⟨20, 2, some "ParagraphChunkingStrategy", 10, [2, 16], 9, 2, 16,
         [(2, 16)], ratTenth⟩) ∧
    (some "ParagraphChunkingStrategy" : Option String) ≠ some "fallback_single" ∧
    10 < String.length "cccccccccccccccc" := by
  refine ⟨by decide, by decide, by decide⟩

/-- C4 (amended): whenever `chunk_with_preallocation` produces a result on
the chunking path, a chunk's token count exceeds the chunker's `max_tokens`
(not the pre-allocated target) exactly when it is flagged as
`(position, tokens)` in the metadata's `oversized_chunks`; in the degenerate
single-chunk fallback case the single oversized chunk is the whole text and
is always flagged. -/
theorem chunkWithPreallocation_oversized_iff (ct : String → Nat)
    (maxTokens : Nat) (q : ℚ) (text : String) (chunks : List String)
    (meta : ChunkingMetadata)
    (hres : chunkWithPreallocation ct maxTokens q text = some (chunks, meta))
    (hbig : maxTokens < ct text) :
    (∀ i (h : i < chunks.length),
        (maxTokens < ct (chunks.get ⟨i, h⟩) ↔
          (i + 1, ct (chunks.get ⟨i, h⟩)) ∈ meta.oversized_chunks)) ∧
    (meta.strategy = some "fallback_single" →
        chunks = [text] ∧ meta.oversized_chunks ≠ []) := by
  unfold chunkWithPreallocation at hres
  rw [if_neg (by omega)] at hres
  split at hres
  · exact absurd hres (by simp)
  · split at hres
    case h_1 l heq =>
      have hp := Option.some.inj hres
      have hc : chunks = l := congrArg Prod.fst hp.symm
      have hm : meta = (finalizeChunks ct maxTokens q (ct text)
          (preallocTarget (ct text) maxTokens) l
          (some "ParagraphChunkingStrategy")).2 := congrArg Prod.snd hp.symm
      subst hc
      refine ⟨?_, ?_⟩
      · intro i h
        rw [hm]
        exact finalizeChunks_oversized_iff ct maxTokens q _ _ chunks _ i h
      · intro hs
        rw [hm] at hs
        exact absurd (Option.some.inj hs) (by decide)
    case h_2 hpara =>
      split at hres
      case h_1 l heq =>
        have hp := Option.some.inj hres
        have hc : chunks = l := congrArg Prod.fst hp.symm
        have hm : meta = (finalizeChunks ct maxTokens q (ct text)
            (preallocTarget (ct text) maxTokens) l
            (some "SentenceChunkingStrategy")).2 := congrArg Prod.snd hp.symm
        subst hc
        refine ⟨?_, ?_⟩
        · intro i h
          rw [hm]
          exact finalizeChunks_oversized_iff ct maxTokens q _ _ chunks _ i h
        · intro hs
          rw [hm] at hs
          exact absurd (Option.some.inj hs) (by decide)
      case h_2 hsent =>
        split at hres
        · exact absurd hres (by simp)
        case h_2 w hword =>
          split at hres
          · -- word strategy succeeded with more than one chunk
            have hp := Option.some.inj hres
            have hc : chunks = w := congrArg Prod.fst hp.symm
            have hm : meta = (finalizeChunks ct maxTokens q (ct text)
                (preallocTarget (ct text) maxTokens) w
                (some "WordChunkingStrategy")).2 := congrArg Prod.snd hp.symm
            subst hc
            refine ⟨?_, ?_⟩
            · intro i h
              rw [hm]
              exact finalizeChunks_oversized_iff ct maxTokens q _ _ chunks _ i h
            · intro hs
              rw [hm] at hs
              exact absurd (Option.some.inj hs) (by decide)
          · split at hres
            · -- fallback_single path
              have hp := Option.some.inj hres
              have hc : chunks = [text] := congrArg Prod.fst hp.symm
              have hm : meta = (finalizeChunks ct maxTokens q (ct text)
                  (preallocTarget (ct text) maxTokens) [text]
                  (some "fallback_single")).2 := congrArg Prod.snd hp.symm
              subst hc
              refine ⟨?_, ?_⟩
              · intro i h
                rw [hm]
                exact finalizeChunks_oversized_iff ct maxTokens q _ _ [text] _ i h
              · intro _
                refine ⟨rfl, ?_⟩
                rw [hm]
                have hmem := (finalizeChunks_oversized_iff ct maxTokens q (ct text)
                  (preallocTarget (ct text) maxTokens) [text]
                  (some "fallback_single") 0 (Nat.zero_lt_succ _)).mp hbig
                exact List.ne_nil_of_mem hmem
            · -- word strategy returned a single chunk, strategy_used = None
              have hp := Option.some.inj hres
              have hc : chunks = w := congrArg Prod.fst hp.symm
              have hm : meta = (finalizeChunks ct maxTokens q (ct text)
                  (preallocTarget (ct text) maxTokens) w
                  none).2 := congrArg Prod.snd hp.symm
              subst hc
              refine ⟨?_, ?_⟩
              · intro i h
                rw [hm]
                exact finalizeChunks_oversized_iff ct maxTokens q _ _ chunks _ i h
              · intro hs
                rw [hm] at hs
                exact Option.noConfusion hs

/-- Witness for C4's amended theorem on the paragraph-strategy run of the
counterexample: the 16-token chunk at position 1 exceeds the chunker budget
10 exactly as recorded by the `(2, 16)` entry of `oversized_chunks`. -/
theorem chunkWithPreallocation_oversized_iff_witness :
    (10 < String.length "cccccccccccccccc" ↔
      ((2 : Nat), String.length "cccccccccccccccc") ∈ [((2 : Nat), (16 : Nat))]) := by
  have h := chunkWithPreallocation_oversized_iff String.length 10 ratTenth
    "ab\n\ncccccccccccccccc" ["ab", "cccccccccccccccc"]
    ⟨20, 2, some "ParagraphChunkingStrategy", 10, [2, 16], 9, 2, 16,
     [(2, 16)], ratTenth⟩
    (by decide) (by decide)
  exact h.1 1 (by decide)

theorem wordChunkLoop_stuck (fuel : Nat) : ∀ (acc : List String),
    wordChunkLoop ["a", "b"] 0 0 fuel 0 acc = none := by
  induction fuel with
  | zero => intro acc; rfl
  | succ n ih =>
    intro acc
    simp only [wordChunkLoop]
    norm_num
    exact ih _

/-- C6: the word-level chunking strategy does NOT terminate for every
`max_tokens ≥ 1`: at `max_tokens = 1` the chunk size
`int(max_tokens * 0.75)` is 0, so `current_pos` never advances and on any
text with at least one word (here `"a b"`) the `while` loop of
`WordChunkingStrategy.chunk` repeats the same position forever, appending
empty chunks — no amount of fuel makes the loop model return, contradicting
the guaranteed-terminating-fallback contract (and the loop's own
"Prevent infinite loop" guard). -/
theorem wordChunk_nonterminating_at_tiny_budget :
    (∀ (fuel : Nat) (acc : List String),
        wordChunkLoop ["a", "b"] 0 0 fuel 0 acc = none) ∧
    wordChunkFuel 1 ratTenth "a b" = none := by
  exact ⟨fun fuel acc => wordChunkLoop_stuck fuel acc, by decide⟩

/-- C3: for every chunk list and per-chunk processing function whose
successful results carry their own index (as `process_single_chunk` does),
`process_chunks` returns exactly N `ChunkResult`s sorted ascending by
`chunk_index` (the result at position k has `chunk_index = k`); a chunk whose
processing raises yields a `ChunkResult` with `success = false` carrying the
exception message as its `error`, and its failure does not prevent any
sibling chunk from producing its own result (each position's result depends
only on that chunk's own outcome). -/
theorem processChunks_ordered_isolated
    (fn : Nat → String → Except String ChunkResult) (chunks : List String)
    (hfn : ∀ i c r, fn i c = .ok r → r.chunk_index = i) :
    (processChunks fn chunks).length = chunks.length ∧
    (∀ k, k < chunks.length →
        ((processChunks fn chunks)[k]?).map ChunkResult.chunk_index = some k) ∧
    (∀ i c e, chunks[i]? = some c → fn i c = .error e →
        (processChunks fn chunks)[i]? =
          some ⟨i, false, none, some e, 0, 0, false⟩) ∧
    (∀ i c r, chunks[i]? = some c → fn i c = .ok r →
        (processChunks fn chunks)[i]? = some r) := by
  refine ⟨?_, ?_, ?_, ?_⟩
  · rw [processChunks_eq_map fn chunks hfn]
    simp [pyEnum_length]
  · intro k hk
    rw [processChunks_getElem? fn chunks hfn k, List.getElem?_eq_getElem hk]
    simp only [Option.map_some']
    rw [chunkOutcome_index fn hfn k _]
  · intro i c e hc herr
    rw [processChunks_getElem? fn chunks hfn i, hc, Option.map_some']
    unfold chunkOutcome
    rw [herr]
  · intro i c r hc hok
    rw [processChunks_getElem? fn chunks hfn i, hc, Option.map_some']
    unfold chunkOutcome
    rw [hok]

/-- The spec's five-chunk example input. -/
def chunks5 : List String := ["c0", "c1", "c2", "c3", "c4"]

/-- A processing function that always fails on chunk index 3 and succeeds on
all others, modelling the spec's "chunk 3 of 5 always fails" scenario. -/
def chunkFn5 : Nat → String → Except String ChunkResult :=
  fun i c =>
    if i = 3 then .error "chunk 3 failed"
    else .ok ⟨i, true, some c, none, 0, 0, false⟩

/-- Witness for C3 at the spec's scenario: 5 results, the result at position
3 is the failed record carrying the exception message, its neighbours are the
successful records, and position 4 still has `chunk_index = 4`. -/
theorem processChunks_ordered_isolated_witness :
    (processChunks chunkFn5 chunks5).length = 5 ∧
    (processChunks chunkFn5 chunks5)[3]? =
      some ⟨3, false, none, some "chunk 3 failed", 0, 0, false⟩ ∧
    (processChunks chunkFn5 chunks5)[2]? =
      some ⟨2, true, some "c2", none, 0, 0, false⟩ ∧
    ((processChunks chunkFn5 chunks5)[4]?).map ChunkResult.chunk_index =
      some 4 := by
  have h := processChunks_ordered_isolated chunkFn5 chunks5
    (by
      intro i c r hr
      unfold chunkFn5 at hr
      split at hr
      · exact absurd hr (by simp)
      · have h2 := Except.ok.inj hr
        subst h2
        rfl)
  refine ⟨h.1, ?_, ?_, h.2.1 4 (by decide)⟩
  · exact h.2.2.1 3 "c3" "chunk 3 failed" rfl rfl
  · exact h.2.2.2 2 "c2" ⟨2, true, some "c2", none, 0, 0, false⟩ rfl rfl

/-- C5: whenever chunking produces a non-empty `oversized_chunks` list,
`convert_large_html` treats the batch as a hard failure before dispatch: it
returns the empty string together with the "Chunking failed" error message,
and no chunk is submitted to the parallel processor (the dispatched-chunk
list is empty). -/
theorem convertLargeHtml_oversized_hard_fail
    (loads : String → Except String Json) (dumps dumpsC : Json → String)
    (ct : String → String → Nat) (getLimit : String → Nat)
    (convertToMd : String → String → String → String × Bool × Option String)
    (model systemPrompt html title customPrompt strategyName : String)
    (q : ℚ) (chunks : List String) (meta : ChunkingMetadata)
    (hbudget : ¬ ((ct html (modelNameOf model) : ℤ) ≤
      (calculateTokenBudget ct getLimit model systemPrompt customPrompt title
        4000 ratNineteenTwentieths).max_input_tokens))
    (hcm : ¬ (chunkerBudget (calculateTokenBudget ct getLimit model
      systemPrompt customPrompt title 4000 ratNineteenTwentieths) < 0))
    (hchunk : chunkWithPreallocation (fun s => ct s (modelNameOf model))
      (chunkerBudget (calculateTokenBudget ct getLimit model systemPrompt
        customPrompt title 4000 ratNineteenTwentieths)).toNat q html =
      some (chunks, meta))
    (hover : meta.oversized_chunks ≠ []) :
    convertLargeHtml loads dumps dumpsC ct getLimit convertToMd model
      systemPrompt html title customPrompt strategyName q =
      some (("", false,
        some ("Chunking failed: " ++ toString meta.oversized_chunks.length ++
          " chunks exceed token limit")), []) := by
  unfold convertLargeHtml convertLargeWithBudget
  rw [if_neg hbudget, if_neg hcm, hchunk, Option.map_some']
  unfold convertLargeChunkPhase
  rw [if_pos]
  intro hzero
  exact hover (List.length_eq_zero.mp hzero)

/-- The length tokenizer used by the concrete orchestration witnesses. -/
def lenTokenizer : String → String → Nat := fun s _ => s.length

/-- A 4220-token context-limit resolver: with the hard-coded
`output_tokens = 4000` and `safety_margin = 0.95` it yields the small input
budget `int(4220 * 0.95) - 4000 = 9`, so a handful of characters already
forces chunking. -/
def limit4220 : String → Nat := fun _ => 4220

/-- An external converter that always succeeds (never consulted on the
oversized-abort path). -/
def alwaysOkConverter : String → String → String → String × Bool × Option String :=
  fun _ _ _ => ("md", true, none)

/-- An external converter whose error is always truthy: every chunk
conversion fails. -/
def alwaysFailConverter : String → String → String → String × Bool × Option String :=
  fun _ _ _ => ("", false, some "boom")

/-- Witness for C5: sixteen `a`s (16 tokens against the input budget 9) have
no paragraph, sentence or word boundaries, so chunking yields one 16-token
chunk flagged oversized, and `convert_large_html` aborts with the
"Chunking failed" error, dispatching nothing. -/
theorem convertLargeHtml_oversized_hard_fail_witness :
    convertLargeHtml Json.parse Json.dumpsModel Json.dumpsModel lenTokenizer
      limit4220 alwaysOkConverter "m" "" "aaaaaaaaaaaaaaaa" "" "" "markdown"
      ratTenth =
      some (("", false, some "Chunking failed: 1 chunks exceed token limit"),
        []) := by
  have h := convertLargeHtml_oversized_hard_fail Json.parse Json.dumpsModel
    Json.dumpsModel lenTokenizer limit4220 alwaysOkConverter "m" ""
    "aaaaaaaaaaaaaaaa" "" "" "markdown" ratTenth
    ["aaaaaaaaaaaaaaaa"] ⟨16, 1, none, 6, [16], 16, 16, 16, [(1, 16)], ratTenth⟩
    (by decide) (by decide) (by decide) (by decide)
  exact h

/-- C9: if on the chunking path every chunk's conversion fails (the external
converter reports a truthy error on every input, so there are no successful
chunk outputs), `convert_large_html` surfaces the single aggregate error
"All chunks failed to process" and returns no partial output: its content
result is the empty string. -/
theorem convertLargeHtml_all_chunks_failed
    (loads : String → Except String Json) (dumps dumpsC : Json → String)
    (ct : String → String → Nat) (getLimit : String → Nat)
    (convertToMd : String → String → String → String × Bool × Option String)
    (model systemPrompt html title customPrompt strategyName : String)
    (q : ℚ) (chunks : List String) (meta : ChunkingMetadata)
    (hbudget : ¬ ((ct html (modelNameOf model) : ℤ) ≤
      (calculateTokenBudget ct getLimit model systemPrompt customPrompt title
        4000 ratNineteenTwentieths).max_input_tokens))
    (hcm : ¬ (chunkerBudget (calculateTokenBudget ct getLimit model
      systemPrompt customPrompt title 4000 ratNineteenTwentieths) < 0))
    (hchunk : chunkWithPreallocation (fun s => ct s (modelNameOf model))
      (chunkerBudget (calculateTokenBudget ct getLimit model systemPrompt
        customPrompt title 4000 ratNineteenTwentieths)).toNat q html =
      some (chunks, meta))
    (hover : meta.oversized_chunks = [])
    (hfail : ∀ c t, pyTruthy (convertToMd c t customPrompt).2.2 = true) :
    convertLargeHtml loads dumps dumpsC ct getLimit convertToMd model
      systemPrompt html title customPrompt strategyName q =
      some (("", false, some "All chunks failed to process"), chunks) := by
  unfold convertLargeHtml convertLargeWithBudget
  rw [if_neg hbudget, if_neg hcm, hchunk, Option.map_some']
  unfold convertLargeChunkPhase
  rw [if_neg (by simp [hover])]
  show some (convertLargeDispatch loads dumps dumpsC ct convertToMd
    (modelNameOf model) title customPrompt strategyName q chunks) = _
  have hidx : ∀ i c r,
      (fun i c => (Except.ok (processSingleChunk ct convertToMd
        (getStrategyPostProcess loads dumps strategyName) (modelNameOf model)
        title customPrompt i c) : Except String ChunkResult)) i c = .ok r →
        r.chunk_index = i := by
    intro i c r hr
    have h2 := Except.ok.inj hr
    subst h2
    unfold processSingleChunk
    split <;> first | rfl | (split <;> rfl)
  have hallfail : (processChunks (fun i c => (Except.ok
      (processSingleChunk ct convertToMd
        (getStrategyPostProcess loads dumps strategyName) (modelNameOf model)
        title customPrompt i c) : Except String ChunkResult)) chunks).filterMap
      (fun r => if r.success ∧ pyTruthy r.output then r.output else none) = [] := by
    rw [processChunks_eq_map _ chunks hidx, List.filterMap_map]
    rw [List.filterMap_eq_nil_iff]
    intro p _
    show (if (chunkOutcome _ p.1 p.2).success ∧
        pyTruthy (chunkOutcome _ p.1 p.2).output then _ else none) = none
    have hc : chunkOutcome (fun i c => (Except.ok (processSingleChunk ct
        convertToMd (getStrategyPostProcess loads dumps strategyName)
        (modelNameOf model) title customPrompt i c) :
          Except String ChunkResult)) p.1 p.2 =
        processSingleChunk ct convertToMd
          (getStrategyPostProcess loads dumps strategyName) (modelNameOf model)
          title customPrompt p.1 p.2 := rfl
    rw [hc]
    unfold processSingleChunk
    rw [if_pos (hfail p.2 _)]
    simp
  simp only [convertLargeDispatch]
  rw [hallfail]
  simp

/-- Witness for C9: `"aa\n\nbb\n\ncc"` (10 tokens against the input budget
9) chunks by paragraphs into `["aa\n\nbb", "cc"]` with no oversized chunk;
with a converter that always reports the error `"boom"`, every chunk fails
and `convert_large_html` returns the empty string with the aggregate
"All chunks failed to process" error. -/
theorem convertLargeHtml_all_chunks_failed_witness :
    convertLargeHtml Json.parse Json.dumpsModel Json.dumpsModel lenTokenizer
      limit4220 alwaysFailConverter "m" "" "aa\n\nbb\n\ncc" "" "" "markdown"
      ratTenth =
      some (("", false, some "All chunks failed to process"),
        ["aa\n\nbb", "cc"]) := by
  have h := convertLargeHtml_all_chunks_failed Json.parse Json.dumpsModel
    Json.dumpsModel lenTokenizer limit4220 alwaysFailConverter "m" ""
    "aa\n\nbb\n\ncc" "" "" "markdown" ratTenth
    ["aa\n\nbb", "cc"]
    ⟨10, 2, some "ParagraphChunkingStrategy", 5, [6, 2], 4, 2, 6, [], ratTenth⟩
    (by decide) (by decide) (by decide) rfl
    (by
      intro c t
      show pyTruthy (some "boom") = true
      decide)
  exact h
